import Mathlib

/-!
Verification of `src/lib/data_centre/database/utils/eodhd_utils.py`.

The module fetches market-reference data from the EODHD HTTP API and reshapes
the JSON responses into pandas DataFrames.  We shallowly embed the parts of
pandas that the module uses (association-list based, column-oriented frames)
and translate each retrieval function.  External effects are made explicit:

* the HTTP layer is an input of type `ApiResponse` (either a transport /
  non-2xx failure, which `requests` raises as an exception, or a parsed JSON
  body);
* `datetime.datetime.now()` is an explicit `now : Nat` parameter;
* `logger.error` / `logger.warning` / `logger.debug` calls are collected in the
  `logs` field of the returned `Outcome`;
* a Python function that returns `None` (explicitly or by falling off the end
  of an `except` branch) yields `result = none`.

Caught exceptions inside the `try` blocks (KeyError on a missing column,
TypeError on string-concatenating a non-string column, ValueError on a
length-mismatched positional column relabeling) are modelled by `Option`
results of the corresponding pandas operations.
-/

namespace EodhdUtils

/-- A value stored in a JSON record or a DataFrame cell.  The module only ever
inspects strings; numbers and timestamps are carried opaquely, and `nan` is
pandas' missing-value marker (introduced when frames with different column
sets are aligned). -/
inductive Cell where
  | str (s : String)
  | num (n : Int)
  | timestamp (t : Nat)
  | nan
deriving DecidableEq, Repr

/-- A JSON object (one row of a provider response): an ordered list of
field / value pairs, as produced by the provider. -/
abbrev Row := List (String × Cell)

/-- First-match lookup in an association list keyed by strings, as used both
for JSON-object field access and DataFrame column access. -/
def lookupKV {α : Type} : List (String × α) → String → Option α
  | [], _ => none
  | (k, v) :: rest, c => if k = c then some v else lookupKV rest c

/-- Whether an association list has an entry for key `c`. -/
def hasKey {α : Type} (l : List (String × α)) (c : String) : Bool :=
  (lookupKV l c).isSome

/-- A pandas DataFrame, column oriented: a row count and an ordered list of
(label, column values) pairs.  Every column of a well-formed frame has
`nrows` entries. -/
structure DataFrame where
  nrows : Nat
  cols : List (String × List Cell)
deriving DecidableEq, Repr

/-- Column access `df[c]` (`none` models a raised KeyError). -/
def DataFrame.getCol (df : DataFrame) (c : String) : Option (List Cell) :=
  lookupKV df.cols c

/-- The cell of row `i` in the column labelled `c`. -/
def DataFrame.cell (df : DataFrame) (i : Nat) (c : String) : Option Cell :=
  (df.getCol c).bind (fun v => v[i]?)

/-- Replace, in place, the value of every entry labelled `c`. -/
def replaceCol : List (String × List Cell) → String → List Cell → List (String × List Cell)
  | [], _, _ => []
  | (k, w) :: rest, c, vals =>
    if k = c then (c, vals) :: replaceCol rest c vals
    else (k, w) :: replaceCol rest c vals

/-- Column assignment `df[c] = vals`: pandas replaces an existing column in
place (keeping its position) and otherwise appends the new column at the
end. -/
def DataFrame.setCol (df : DataFrame) (c : String) (vals : List Cell) : DataFrame :=
  if hasKey df.cols c then
    ⟨df.nrows, replaceCol df.cols c vals⟩
  else
    ⟨df.nrows, df.cols ++ [(c, vals)]⟩

/-- Scalar column assignment `df[c] = v`: the scalar is broadcast to every
row. -/
def DataFrame.setColConst (df : DataFrame) (c : String) (v : Cell) : DataFrame :=
  df.setCol c (List.replicate df.nrows v)

/-- Column projection `df[[c1, ..., ck]]`, in the listed order; `none` models
the KeyError raised when a requested label is missing. -/
def DataFrame.select (df : DataFrame) (names : List String) : Option DataFrame :=
  if names.all (fun c => hasKey df.cols c) then
    some ⟨df.nrows, names.map (fun c => (c, (df.getCol c).getD []))⟩
  else none

/-- `df.drop(columns=names)`; `none` models the KeyError raised when a listed
label is missing. -/
def DataFrame.dropCols (df : DataFrame) (names : List String) : Option DataFrame :=
  if names.all (fun c => hasKey df.cols c) then
    some ⟨df.nrows, df.cols.filter (fun p => decide (p.1 ∉ names))⟩
  else none

/-- Positional column relabeling `df.columns = names`; `none` models the
ValueError raised on a length mismatch. -/
def DataFrame.setColumns (df : DataFrame) (names : List String) : Option DataFrame :=
  if names.length = df.cols.length then
    some ⟨df.nrows, names.zip (df.cols.map Prod.snd)⟩
  else none

/-- `df.empty`: true when either axis has length zero. -/
def DataFrame.isEmpty (df : DataFrame) : Bool :=
  df.nrows == 0 || df.cols.isEmpty

/-- Key dedup helper: keeps the first occurrence of each key, in order. -/
def dedupAux : List String → List String → List String
  | [], _ => []
  | k :: ks, seen => if k ∈ seen then dedupAux ks seen else k :: dedupAux ks (k :: seen)

/-- The column labels `pd.DataFrame(list_of_dicts)` produces: the union of the
records' keys, in order of first appearance. -/
def keyUnion (rows : List Row) : List String :=
  dedupAux (rows.foldr (fun r acc => r.map Prod.fst ++ acc) []) []

/-- `pd.DataFrame(list_of_dicts)`: one column per key in the union, a record
missing a key contributes `nan`. -/
def fromRecords (rows : List Row) : DataFrame :=
  ⟨rows.length,
   (keyUnion rows).map (fun c => (c, rows.map (fun r => (lookupKV r c).getD Cell.nan)))⟩

/-- `pd.concat([d1, d2], ignore_index=True)`: rows of `d1` followed by rows of
`d2`, columns aligned by label (`d1` labels first, then the labels only in
`d2`), absent entries filled with `nan`. -/
def concatDF (d1 d2 : DataFrame) : DataFrame :=
  ⟨d1.nrows + d2.nrows,
   (d1.cols.map Prod.fst
      ++ (d2.cols.map Prod.fst).filter (fun c => decide (c ∉ d1.cols.map Prod.fst))).map
     (fun c =>
       (c, ((d1.getCol c).getD (List.replicate d1.nrows Cell.nan))
             ++ ((d2.getCol c).getD (List.replicate d2.nrows Cell.nan))))⟩

/-- Element-wise `series + suffix` on an object column: succeeds only when
every cell is a string (`none` models the TypeError raised otherwise). -/
def catSuffix : List Cell → String → Option (List Cell)
  | [], _ => some []
  | Cell.str s :: rest, suf =>
    match catSuffix rest suf with
    | some t => some (Cell.str (s ++ suf) :: t)
    | none => none
  | _ :: _, _ => none

/-! ## Constants of the module -/

/-- `PRICE_COLUMNS_SORTED` from the source. -/
def PRICE_COLUMNS_SORTED : List String :=
  ["Ticker_ID", "Date", "Open", "High", "Low", "Close", "Adjusted_Close", "Volume"]

/-- `PRICE_COLUMNS` from the source. -/
def PRICE_COLUMNS : List String :=
  ["Date", "Open", "High", "Low", "Close", "Adjusted_Close", "Volume", "Ticker_ID"]

/-- `US_EXCHANGES` from the source: the static lookup of manually injected US
exchange records, in the dict's insertion order (NYSE first, NASDAQ second). -/
def US_EXCHANGES : List (String × Row) :=
  [("NYSE",
    [("Name", Cell.str "New York Stock Exchange"),
     ("OperatingMIC", Cell.str "XNYS"),
     ("Country", Cell.str "US"),
     ("Currency", Cell.str "USD"),
     ("CountryISO2", Cell.str "US"),
     ("CountryISO3", Cell.str "USA")]),
   ("NASDAQ",
    [("Name", Cell.str "NASDAQ"),
     ("OperatingMIC", Cell.str "XNAS"),
     ("Country", Cell.str "US"),
     ("Currency", Cell.str "USD"),
     ("CountryISO2", Cell.str "US"),
     ("CountryISO3", Cell.str "USA")])]

/-- `list(US_EXCHANGES.keys())`. -/
def usKeys : List String := US_EXCHANGES.map Prod.fst

/-- The lambda applied to the `Exchange` column in `retrieve_tickers`:
`'US' if x in list(US_EXCHANGES.keys()) else x`. -/
def usCollapse (c : Cell) : Cell :=
  match c with
  | Cell.str s => if s ∈ usKeys then Cell.str "US" else Cell.str s
  | c => c

/-! ## Request layer -/

/-- The JSON body of a successful HTTP response: either an array of flat
objects (the shape every endpoint used here produces) or a scalar value
carrying its Python truthiness (`pd.DataFrame` raises on a scalar). -/
inductive JsonValue where
  | jlist (rows : List Row)
  | jscalar (truthy : Bool)
deriving DecidableEq, Repr

/-- The outcome of one HTTP GET: a transport or non-2xx failure (raised by
`requests` / `raise_for_status`) or a parsed JSON body. -/
inductive ApiResponse where
  | netError
  | json (v : JsonValue)
deriving DecidableEq, Repr

/-- The logger levels the module emits. -/
inductive LogLevel where
  | error
  | warning
  | debug
deriving DecidableEq, Repr

/-- What a retrieval function produces: the log messages it emitted (by
level) and its return value, `none` for Python `None`. -/
structure Outcome where
  logs : List LogLevel
  result : Option DataFrame
deriving DecidableEq, Repr

/-- Python truthiness of a parsed JSON body, as tested by `if not data`. -/
def pyTruthy : JsonValue → Bool
  | JsonValue.jlist rows => !rows.isEmpty
  | JsonValue.jscalar t => t

/-- `_make_api_request`: on a `RequestException` (network failure or non-2xx
status after `raise_for_status`) it logs an error and returns `None`;
otherwise it returns the parsed JSON body. -/
def make_api_request (resp : ApiResponse) : Option JsonValue × List LogLevel :=
  match resp with
  | ApiResponse.netError => (none, [LogLevel.error])
  | ApiResponse.json v => (some v, [])

/-- One HTTP exchange, before any function-specific handling: either the
request itself fails (connection error, or a body that is not JSON), or a
response arrives with a status class (`ok2xx`) and a parsed JSON body. -/
inductive HttpResult where
  | transportError
  | response (ok2xx : Bool) (body : JsonValue)
deriving DecidableEq, Repr

/-- What the code path `requests.get(url)` + `response.raise_for_status()` +
`.json()` inside `_make_api_request` delivers: any transport failure, and any
non-2xx status (turned into an `HTTPError` by `raise_for_status`), raise a
`RequestException`; only a 2xx response yields its body. -/
def helperTransport : HttpResult → ApiResponse
  | HttpResult.transportError => ApiResponse.netError
  | HttpResult.response false _ => ApiResponse.netError
  | HttpResult.response true body => ApiResponse.json body

/-- What the inline `requests.get(url).json()` in `retrieve_historical_price`
delivers: there is no `raise_for_status`, so only a transport or JSON-decode
failure raises; the parsed body of a non-2xx response flows through exactly
like a 2xx body. -/
def historicalTransport : HttpResult → ApiResponse
  | HttpResult.transportError => ApiResponse.netError
  | HttpResult.response _ body => ApiResponse.json body

/-! ## The four retrieval functions -/

/-- The `try` block of `retrieve_tickers`: tag `Source` and `Date_Updated`,
synthesize `Ticker_ID = df['Code'] + '_' + exchange`, collapse US exchanges
into `EoDHD_Exchange`, and project to the fixed column list. -/
def tickersReshape (exchange : String) (now : Nat) (rows : List Row) : Option DataFrame :=
  let df0 := fromRecords rows
  let df1 := df0.setColConst "Source" (Cell.str ("EoDHD.com - Exchange " ++ exchange))
  let df2 := df1.setColConst "Date_Updated" (Cell.timestamp now)
  (df2.getCol "Code").bind (fun codes =>
    (catSuffix codes ("_" ++ exchange)).bind (fun tids =>
      ((df2.setCol "Ticker_ID" tids).getCol "Exchange").bind (fun exs =>
        ((df2.setCol "Ticker_ID" tids).setCol "EoDHD_Exchange" (exs.map usCollapse)).select
          ["Ticker_ID", "Code", "Name", "Country", "Exchange", "EoDHD_Exchange",
           "Currency", "Type", "Isin", "Source", "Date_Updated"])))

/-- `retrieve_tickers(api_key, exchange)`. -/
def retrieve_tickers (api_key exchange : String) (now : Nat) (resp : ApiResponse) : Outcome :=
  match make_api_request resp with
  | (none, logs) => ⟨logs, none⟩
  | (some (JsonValue.jscalar _), logs) => ⟨logs, none⟩
  | (some (JsonValue.jlist rows), logs) =>
    if rows.isEmpty then ⟨logs, none⟩
    else
      match tickersReshape exchange now rows with
      | some df => ⟨logs, some df⟩
      | none => ⟨logs ++ [LogLevel.error], none⟩

/-- The two manually injected exchange records built inside
`retrieve_exchanges` (dict-merge order: the `US_EXCHANGES` fields first, then
`Code`, `Source`, `Date_Updated`). -/
def manualUsRows (now : Nat) : List Row :=
  US_EXCHANGES.map (fun p =>
    p.2 ++ [("Code", Cell.str p.1), ("Source", Cell.str "Manual_Input"),
            ("Date_Updated", Cell.timestamp now)])

/-- The `try` block of `retrieve_exchanges`: tag the provider rows, build the
manual US frame, and concatenate provider rows followed by the manual rows. -/
def exchangesReshape (now : Nat) (rows : List Row) : DataFrame :=
  let df0 := fromRecords rows
  let df1 := df0.setColConst "Source" (Cell.str "EoDHD.com")
  let df2 := df1.setColConst "Date_Updated" (Cell.timestamp now)
  concatDF df2 (fromRecords (manualUsRows now))

/-- `retrieve_exchanges(api_key)`.  Note the `if not data: return None` guard
runs before any manual row is added. -/
def retrieve_exchanges (api_key : String) (now : Nat) (resp : ApiResponse) : Outcome :=
  match make_api_request resp with
  | (none, logs) => ⟨logs, none⟩
  | (some v, logs) =>
    if pyTruthy v then
      match v with
      | JsonValue.jscalar _ => ⟨logs ++ [LogLevel.error], none⟩
      | JsonValue.jlist rows => ⟨logs, some (exchangesReshape now rows)⟩
    else ⟨logs, none⟩

/-- Python `s.replace(".", "_")` for the one-character pattern the module
uses: replace every `.` character by `_`. -/
def replaceDot (s : String) : String :=
  String.mk (s.data.map (fun ch => if ch = '.' then '_' else ch))

/-- The reshaping part of `retrieve_historical_price`'s `try` block for a
non-empty frame: synthesize the constant `Ticker_ID` column from the provider
ticker identifier with `.` replaced by `_`, relabel positionally with
`PRICE_COLUMNS[:len(price_data.columns)]`, and reorder to the sorted
layout. -/
def historicalReshape (exchange ticker : String) (rows : List Row) : Option DataFrame :=
  let price_data := fromRecords rows
  let id := replaceDot (ticker ++ "." ++ exchange)
  let withId := price_data.setColConst "Ticker_ID" (Cell.str id)
  match withId.setColumns (PRICE_COLUMNS.take withId.cols.length) with
  | none => none
  | some relabeled => relabeled.select PRICE_COLUMNS_SORTED

/-- `retrieve_historical_price(exchange, ticker, date_to, eodhd_api)`.  The
HTTP GET happens inside the `try`, so a transport failure is caught by the
same `except` that catches reshaping errors; the function falls off the end
of the `except` branch, returning `None`. -/
def retrieve_historical_price (exchange ticker date_to eodhd_api : String)
    (resp : ApiResponse) : Outcome :=
  match resp with
  | ApiResponse.netError => ⟨[LogLevel.error], none⟩
  | ApiResponse.json (JsonValue.jscalar _) => ⟨[LogLevel.error], none⟩
  | ApiResponse.json (JsonValue.jlist rows) =>
    if (fromRecords rows).isEmpty then ⟨[LogLevel.debug], none⟩
    else
      match historicalReshape exchange ticker rows with
      | none => ⟨[LogLevel.error], none⟩
      | some out => ⟨[], some out⟩

/-- The `try` block of `retrieve_daily_price`: synthesize
`Ticker_ID = df['code'] + '_' + exchange`, drop `code` and
`exchange_short_name`, relabel positionally to `PRICE_COLUMNS`, reorder to the
sorted layout, and re-project to the unsorted layout. -/
def dailyReshape (exchange : String) (rows : List Row) : Option DataFrame :=
  let df := fromRecords rows
  (df.getCol "code").bind (fun codes =>
    (catSuffix codes ("_" ++ exchange)).bind (fun tids =>
      ((df.setCol "Ticker_ID" tids).dropCols ["code", "exchange_short_name"]).bind (fun df2 =>
        (df2.setColumns PRICE_COLUMNS).bind (fun df3 =>
          (df3.select PRICE_COLUMNS_SORTED).bind (fun df4 =>
            df4.select PRICE_COLUMNS)))))

/-- `retrieve_daily_price(exchange, api_key)`.  The `if not data:` guard runs
for a `None` helper result as well as for a falsy body, and it always logs
its own warning — so after a failed request the function emits the helper's
error log followed by the warning. -/
def retrieve_daily_price (exchange api_key : String) (resp : ApiResponse) : Outcome :=
  match make_api_request resp with
  | (none, logs) => ⟨logs ++ [LogLevel.warning], none⟩
  | (some v, logs) =>
    if pyTruthy v then
      match v with
      | JsonValue.jscalar _ => ⟨logs ++ [LogLevel.error], none⟩
      | JsonValue.jlist rows =>
        match dailyReshape exchange rows with
        | some df => ⟨logs, some df⟩
        | none => ⟨logs ++ [LogLevel.error], none⟩
    else ⟨logs ++ [LogLevel.warning], none⟩

/-- Well-formedness: every column holds one value per row. -/
def ColsOk (df : DataFrame) : Prop :=
  ∀ p, p ∈ df.cols → (p.2 : List Cell).length = df.nrows

/-- Whether an optional cell holds a string — the precondition for the
pandas string concatenation `df['code'] + suffix` to succeed on that cell. -/
def isStrCell : Option Cell → Bool
  | some (Cell.str _) => true
  | _ => false

/-! ## Basic lemmas about the embedded pandas operations -/

theorem lookupKV_append_some {α : Type} {l1 l2 : List (String × α)} {c : String} {v : α}
    (h : lookupKV l1 c = some v) : lookupKV (l1 ++ l2) c = some v := by
  induction l1 with
  | nil => simp [lookupKV] at h
  | cons p rest ih =>
    obtain ⟨k, w⟩ := p
    simp only [lookupKV, List.cons_append] at h ⊢
    split at h
    · simp_all [lookupKV]
    · simp_all [lookupKV]

theorem lookupKV_append_none {α : Type} {l1 l2 : List (String × α)} {c : String}
    (h : lookupKV l1 c = none) : lookupKV (l1 ++ l2) c = lookupKV l2 c := by
  induction l1 with
  | nil => simp
  | cons p rest ih =>
    obtain ⟨k, w⟩ := p
    simp only [lookupKV, List.cons_append] at h ⊢
    split at h
    · exact absurd h (by simp)
    · simp_all [lookupKV]

theorem lookupKV_map_self {α : Type} (f : String → α) (l : List String) (c : String) :
    lookupKV (l.map (fun k => (k, f k))) c = if c ∈ l then some (f c) else none := by
  induction l with
  | nil => simp [lookupKV]
  | cons k rest ih =>
    simp only [List.map_cons, lookupKV, List.mem_cons]
    by_cases hk : k = c
    · subst hk
      simp
    · simp only [hk, if_false]
      rw [ih]
      by_cases hc : c ∈ rest
      · simp [hc]
      · simp [hc, Ne.symm hk]

theorem lookupKV_isSome_iff {α : Type} {l : List (String × α)} {c : String} :
    (lookupKV l c).isSome = true ↔ c ∈ l.map Prod.fst := by
  induction l with
  | nil => simp [lookupKV]
  | cons p rest ih =>
    obtain ⟨k, w⟩ := p
    simp only [lookupKV, List.map_cons, List.mem_cons]
    by_cases hk : k = c
    · subst hk
      simp
    · simp [hk, ih, Ne.symm hk]

theorem hasKey_iff {α : Type} {l : List (String × α)} {c : String} :
    hasKey l c = true ↔ c ∈ l.map Prod.fst := by
  unfold hasKey
  exact lookupKV_isSome_iff

theorem lookupKV_mem {α : Type} {l : List (String × α)} {c : String} {v : α}
    (h : lookupKV l c = some v) : (c, v) ∈ l := by
  induction l with
  | nil => simp [lookupKV] at h
  | cons p rest ih =>
    obtain ⟨k, w⟩ := p
    simp only [lookupKV] at h
    split at h
    · rename_i hk
      subst hk
      simp_all
    · simp [ih h]

theorem mem_dedupAux {l seen : List String} {c : String} :
    c ∈ dedupAux l seen ↔ c ∈ l ∧ c ∉ seen := by
  induction l generalizing seen with
  | nil => simp [dedupAux]
  | cons k rest ih =>
    simp only [dedupAux, List.mem_cons]
    by_cases hk : k ∈ seen
    · rw [if_pos hk, ih]
      constructor
      · rintro ⟨h1, h2⟩
        exact ⟨Or.inr h1, h2⟩
      · rintro ⟨h1 | h1, h2⟩
        · subst h1
          exact absurd hk h2
        · exact ⟨h1, h2⟩
    · rw [if_neg hk]
      simp only [List.mem_cons, ih, List.mem_cons]
      constructor
      · rintro (h | ⟨h1, h2⟩)
        · subst h
          exact ⟨Or.inl rfl, hk⟩
        · exact ⟨Or.inr h1, fun hc => h2 (Or.inr hc)⟩
      · rintro ⟨h1 | h1, h2⟩
        · subst h1
          exact Or.inl rfl
        · by_cases hck : c = k
          · exact Or.inl hck
          · exact Or.inr ⟨h1, fun hc => by
              rcases hc with h | h
              · exact hck h
              · exact h2 h⟩

theorem dedupAux_nodup (l seen : List String) : (dedupAux l seen).Nodup := by
  induction l generalizing seen with
  | nil => simp [dedupAux]
  | cons k rest ih =>
    simp only [dedupAux]
    split
    · exact ih seen
    · refine List.nodup_cons.mpr ⟨fun hc => ?_, ih (k :: seen)⟩
      exact (mem_dedupAux.mp hc).2 (List.mem_cons_self k seen)

theorem mem_keyUnion {rows : List Row} {c : String} :
    c ∈ keyUnion rows ↔ ∃ r, r ∈ rows ∧ c ∈ r.map Prod.fst := by
  unfold keyUnion
  rw [mem_dedupAux]
  simp only [List.not_mem_nil, not_false_iff, and_true]
  induction rows with
  | nil => simp
  | cons r rest ih => simp [List.mem_append, ih]

theorem keyUnion_nodup (rows : List Row) : (keyUnion rows).Nodup :=
  dedupAux_nodup _ _

theorem fromRecords_nrows (rows : List Row) : (fromRecords rows).nrows = rows.length := rfl

theorem fromRecords_colKeys (rows : List Row) :
    (fromRecords rows).cols.map Prod.fst = keyUnion rows := by
  unfold fromRecords
  simp only [List.map_map]
  generalize keyUnion rows = ks
  induction ks with
  | nil => rfl
  | cons k rest ih => simp_all

theorem fromRecords_getCol (rows : List Row) (c : String) :
    (fromRecords rows).getCol c =
      if c ∈ keyUnion rows then some (rows.map (fun r => (lookupKV r c).getD Cell.nan))
      else none := by
  unfold fromRecords DataFrame.getCol
  exact lookupKV_map_self _ _ _

theorem fromRecords_hasKey (rows : List Row) (c : String) :
    hasKey (fromRecords rows).cols c = true ↔ c ∈ keyUnion rows := by
  rw [hasKey_iff, fromRecords_colKeys]

theorem setCol_nrows (df : DataFrame) (c : String) (vals : List Cell) :
    (df.setCol c vals).nrows = df.nrows := by
  unfold DataFrame.setCol
  split <;> rfl

theorem lookupKV_replaceCol_self {l : List (String × List Cell)} {c : String}
    (vals : List Cell) (h : (lookupKV l c).isSome = true) :
    lookupKV (replaceCol l c vals) c = some vals := by
  induction l with
  | nil => simp [lookupKV] at h
  | cons p rest ih =>
    obtain ⟨k, w⟩ := p
    by_cases hk : k = c
    · simp [replaceCol, hk, lookupKV]
    · have h2 : (lookupKV rest c).isSome = true := by
        simpa [lookupKV, hk] using h
      simp [replaceCol, hk, lookupKV, ih h2]

theorem lookupKV_replaceCol_ne {l : List (String × List Cell)} {c c2 : String}
    (vals : List Cell) (h : c ≠ c2) :
    lookupKV (replaceCol l c2 vals) c = lookupKV l c := by
  induction l with
  | nil => simp [replaceCol]
  | cons p rest ih =>
    obtain ⟨k, w⟩ := p
    by_cases hk : k = c2
    · subst hk
      simp [replaceCol, lookupKV, Ne.symm h, ih]
    · simp only [replaceCol, if_neg hk, lookupKV]
      split <;> simp [ih]

theorem mem_replaceCol {l : List (String × List Cell)} {c : String} {vals : List Cell}
    {p : String × List Cell} (h : p ∈ replaceCol l c vals) :
    p = (c, vals) ∨ p ∈ l := by
  induction l with
  | nil => simp [replaceCol] at h
  | cons q rest ih =>
    obtain ⟨k, w⟩ := q
    by_cases hk : k = c
    · rw [replaceCol, if_pos hk, List.mem_cons] at h
      rcases h with h | h
      · exact Or.inl h
      · rcases ih h with h2 | h2
        · exact Or.inl h2
        · exact Or.inr (List.mem_cons_of_mem _ h2)
    · rw [replaceCol, if_neg hk, List.mem_cons] at h
      rcases h with h | h
      · exact Or.inr (h ▸ List.mem_cons_self _ _)
      · rcases ih h with h2 | h2
        · exact Or.inl h2
        · exact Or.inr (List.mem_cons_of_mem _ h2)

theorem getCol_setCol_self (df : DataFrame) (c : String) (vals : List Cell) :
    (df.setCol c vals).getCol c = some vals := by
  unfold DataFrame.setCol
  by_cases h : hasKey df.cols c = true
  · rw [if_pos h]
    unfold hasKey at h
    exact lookupKV_replaceCol_self vals h
  · rw [if_neg (by simp [h])]
    unfold hasKey at h
    have hn : lookupKV df.cols c = none := by
      cases hl : lookupKV df.cols c with
      | none => rfl
      | some v => rw [hl] at h; simp at h
    show lookupKV (df.cols ++ [(c, vals)]) c = some vals
    rw [lookupKV_append_none hn]
    simp [lookupKV]

theorem getCol_setCol_ne (df : DataFrame) {c c2 : String} (vals : List Cell)
    (h : c ≠ c2) : (df.setCol c2 vals).getCol c = df.getCol c := by
  unfold DataFrame.setCol
  split
  · exact lookupKV_replaceCol_ne vals h
  · show lookupKV (df.cols ++ [(c2, vals)]) c = df.getCol c
    cases hl : lookupKV df.cols c with
    | none =>
      rw [lookupKV_append_none hl]
      show lookupKV [(c2, vals)] c = df.getCol c
      unfold DataFrame.getCol
      simp [lookupKV, Ne.symm h, hl]
    | some v =>
      rw [lookupKV_append_some hl]
      exact hl.symm

theorem setCol_cols_append {df : DataFrame} {c : String} (vals : List Cell)
    (h : hasKey df.cols c = false) :
    (df.setCol c vals).cols = df.cols ++ [(c, vals)] := by
  unfold DataFrame.setCol
  rw [if_neg (by simp [h])]

theorem setColConst_nrows (df : DataFrame) (c : String) (v : Cell) :
    (df.setColConst c v).nrows = df.nrows := setCol_nrows _ _ _

theorem getCol_setColConst_self (df : DataFrame) (c : String) (v : Cell) :
    (df.setColConst c v).getCol c = some (List.replicate df.nrows v) :=
  getCol_setCol_self _ _ _

theorem getCol_setColConst_ne (df : DataFrame) {c c2 : String} (v : Cell)
    (h : c ≠ c2) : (df.setColConst c2 v).getCol c = df.getCol c :=
  getCol_setCol_ne _ _ h

theorem colsOk_fromRecords (rows : List Row) : ColsOk (fromRecords rows) := by
  intro p hp
  unfold fromRecords at hp ⊢
  simp only [List.mem_map] at hp
  obtain ⟨c, _, rfl⟩ := hp
  simp

theorem colsOk_setCol {df : DataFrame} {c : String} {vals : List Cell}
    (hok : ColsOk df) (hv : vals.length = df.nrows) : ColsOk (df.setCol c vals) := by
  intro p hp
  rw [setCol_nrows]
  unfold DataFrame.setCol at hp
  split at hp
  · rcases mem_replaceCol hp with h1 | h1
    · rw [h1]
      exact hv
    · exact hok p h1
  · simp only [List.mem_append, List.mem_singleton] at hp
    rcases hp with hp | hp
    · exact hok p hp
    · rw [hp]
      exact hv

theorem colsOk_setColConst {df : DataFrame} (hok : ColsOk df) (c : String) (v : Cell) :
    ColsOk (df.setColConst c v) :=
  colsOk_setCol hok (by simp)

theorem getCol_length {df : DataFrame} {c : String} {v : List Cell}
    (hok : ColsOk df) (h : df.getCol c = some v) : v.length = df.nrows :=
  hok (c, v) (lookupKV_mem h)

/-! select -/

theorem select_eq_some {df : DataFrame} {names : List String}
    (h : ∀ c, c ∈ names → hasKey df.cols c = true) :
    df.select names = some ⟨df.nrows, names.map (fun c => (c, (df.getCol c).getD []))⟩ := by
  unfold DataFrame.select
  rw [if_pos (List.all_eq_true.mpr (fun c hc => h c hc))]

theorem select_inv {df : DataFrame} {names : List String} {out : DataFrame}
    (h : df.select names = some out) :
    (∀ c, c ∈ names → hasKey df.cols c = true) ∧
      out = ⟨df.nrows, names.map (fun c => (c, (df.getCol c).getD []))⟩ := by
  unfold DataFrame.select at h
  split at h
  · rename_i hall
    exact ⟨fun c hc => List.all_eq_true.mp hall c hc, by simpa using h.symm⟩
  · simp at h

theorem select_nrows {df : DataFrame} {names : List String} {out : DataFrame}
    (h : df.select names = some out) : out.nrows = df.nrows := by
  rw [(select_inv h).2]

theorem select_colKeys {df : DataFrame} {names : List String} {out : DataFrame}
    (h : df.select names = some out) : out.cols.map Prod.fst = names := by
  rw [(select_inv h).2]
  simp only [List.map_map]
  generalize names = ns
  induction ns with
  | nil => rfl
  | cons k rest ih => simp_all

theorem select_getCol {df : DataFrame} {names : List String} {out : DataFrame}
    (h : df.select names = some out) {c : String} (hc : c ∈ names) :
    out.getCol c = df.getCol c := by
  obtain ⟨hall, rfl⟩ := select_inv h
  show lookupKV (names.map (fun k => (k, (df.getCol k).getD []))) c = df.getCol c
  rw [lookupKV_map_self (fun k => (df.getCol k).getD []) names c, if_pos hc]
  have h2 : (df.getCol c).isSome = true := hall c hc
  cases hl : df.getCol c with
  | none => rw [hl] at h2; simp at h2
  | some v => simp [hl]

theorem colsOk_select {df : DataFrame} {names : List String} {out : DataFrame}
    (hok : ColsOk df) (h : df.select names = some out) : ColsOk out := by
  obtain ⟨hall, rfl⟩ := select_inv h
  intro p hp
  simp only [List.mem_map] at hp
  obtain ⟨c, hc, rfl⟩ := hp
  simp only
  have h2 : (df.getCol c).isSome = true := hall c hc
  cases hl : df.getCol c with
  | none => rw [hl] at h2; simp at h2
  | some v => simpa using getCol_length hok hl

/-! setColumns -/

theorem setColumns_eq_some {df : DataFrame} {names : List String}
    (h : names.length = df.cols.length) :
    df.setColumns names = some ⟨df.nrows, names.zip (df.cols.map Prod.snd)⟩ := by
  unfold DataFrame.setColumns
  rw [if_pos h]

theorem setColumns_eq_none {df : DataFrame} {names : List String}
    (h : names.length ≠ df.cols.length) : df.setColumns names = none := by
  unfold DataFrame.setColumns
  rw [if_neg h]

theorem setColumns_inv {df : DataFrame} {names : List String} {out : DataFrame}
    (h : df.setColumns names = some out) :
    names.length = df.cols.length ∧
      out = ⟨df.nrows, names.zip (df.cols.map Prod.snd)⟩ := by
  unfold DataFrame.setColumns at h
  split at h
  · rename_i hlen
    exact ⟨hlen, by simpa using h.symm⟩
  · simp at h

theorem lookupKV_zip {α : Type} (names : List String) (vals : List α) (c : String) (i : Nat)
    (hn : names.Nodup) (hl : names.length = vals.length) (hi : names[i]? = some c) :
    lookupKV (names.zip vals) c = vals[i]? := by
  induction names generalizing vals i with
  | nil => simp at hi
  | cons k rest ih =>
    cases vals with
    | nil => simp at hl
    | cons v vs =>
      cases i with
      | zero =>
        simp only [List.getElem?_cons_zero, Option.some_inj] at hi
        subst hi
        simp [lookupKV]
      | succ j =>
        simp only [List.getElem?_cons_succ] at hi
        have hc : c ∈ rest := by
          have := List.getElem?_eq_some_iff.mp hi
          obtain ⟨hj, hje⟩ := this
          exact hje ▸ List.getElem_mem hj
        have hk : ¬ k = c := fun he => (List.nodup_cons.mp hn).1 (he ▸ hc)
        simp only [List.zip_cons_cons, lookupKV, hk, if_false, List.getElem?_cons_succ]
        exact ih vs j (List.nodup_cons.mp hn).2 (by simpa using hl) hi

/-! dropCols -/

theorem dropCols_eq_some {df : DataFrame} {names : List String}
    (h : ∀ c, c ∈ names → hasKey df.cols c = true) :
    df.dropCols names =
      some ⟨df.nrows, df.cols.filter (fun p => decide (p.1 ∉ names))⟩ := by
  unfold DataFrame.dropCols
  rw [if_pos (List.all_eq_true.mpr (fun c hc => h c hc))]

theorem dropCols_inv {df : DataFrame} {names : List String} {out : DataFrame}
    (h : df.dropCols names = some out) :
    (∀ c, c ∈ names → hasKey df.cols c = true) ∧
      out = ⟨df.nrows, df.cols.filter (fun p => decide (p.1 ∉ names))⟩ := by
  unfold DataFrame.dropCols at h
  split at h
  · rename_i hall
    exact ⟨fun c hc => List.all_eq_true.mp hall c hc, by simpa using h.symm⟩
  · simp at h

/-! concat -/

theorem concatDF_nrows (d1 d2 : DataFrame) :
    (concatDF d1 d2).nrows = d1.nrows + d2.nrows := rfl

theorem concatDF_getCol {d1 d2 : DataFrame} {c : String}
    (hc : c ∈ d1.cols.map Prod.fst ∨ c ∈ d2.cols.map Prod.fst) :
    (concatDF d1 d2).getCol c =
      some (((d1.getCol c).getD (List.replicate d1.nrows Cell.nan))
        ++ ((d2.getCol c).getD (List.replicate d2.nrows Cell.nan))) := by
  unfold concatDF DataFrame.getCol
  dsimp only
  rw [lookupKV_map_self
      (fun k => ((lookupKV d1.cols k).getD (List.replicate d1.nrows Cell.nan))
        ++ ((lookupKV d2.cols k).getD (List.replicate d2.nrows Cell.nan)))]
  rw [if_pos]
  rcases hc with hc | hc
  · exact List.mem_append_left _ hc
  · by_cases h1 : c ∈ d1.cols.map Prod.fst
    · exact List.mem_append_left _ h1
    · exact List.mem_append_right _ (List.mem_filter.mpr ⟨hc, by simpa using h1⟩)

theorem concatDF_getCol_both {d1 d2 : DataFrame} {c : String} {v w : List Cell}
    (h1 : d1.getCol c = some v) (h2 : d2.getCol c = some w) :
    (concatDF d1 d2).getCol c = some (v ++ w) := by
  rw [concatDF_getCol (Or.inl (lookupKV_isSome_iff.mp (by simp [DataFrame.getCol] at h1 ⊢; simp [h1])))]
  rw [h1, h2]
  rfl

theorem concatDF_cell_right {d1 d2 : DataFrame} {c : String} {w : List Cell}
    (hok : ColsOk d1) (h2 : d2.getCol c = some w) (j : Nat) :
    (concatDF d1 d2).cell (d1.nrows + j) c = w[j]? := by
  have hc2 : c ∈ d2.cols.map Prod.fst := lookupKV_isSome_iff.mp (by simp [DataFrame.getCol] at h2 ⊢; simp [h2])
  unfold DataFrame.cell
  rw [concatDF_getCol (Or.inr hc2), h2]
  have hlen : ((d1.getCol c).getD (List.replicate d1.nrows Cell.nan)).length = d1.nrows := by
    cases hl : d1.getCol c with
    | none => simp
    | some v => simpa using getCol_length hok hl
  show ((d1.getCol c).getD (List.replicate d1.nrows Cell.nan) ++ w)[d1.nrows + j]? = w[j]?
  rw [List.getElem?_append_right (by omega)]
  congr 1
  omega

/-! catSuffix -/

theorem catSuffix_length {l : List Cell} {s : String} {t : List Cell}
    (h : catSuffix l s = some t) : t.length = l.length := by
  induction l generalizing t with
  | nil => simp [catSuffix] at h; simp [← h]
  | cons x rest ih =>
    cases x with
    | str a =>
      rw [catSuffix] at h
      cases ht : catSuffix rest s with
      | none => rw [ht] at h; simp at h
      | some t2 =>
        rw [ht] at h
        simp only [Option.some_inj] at h
        rw [← h]
        simpa using ih ht
    | num n => simp [catSuffix] at h
    | timestamp t2 => simp [catSuffix] at h
    | nan => simp [catSuffix] at h

theorem catSuffix_getElem {l : List Cell} {s : String} {t : List Cell}
    (h : catSuffix l s = some t) {i : Nat} {a : String}
    (hi : l[i]? = some (Cell.str a)) : t[i]? = some (Cell.str (a ++ s)) := by
  induction l generalizing t i with
  | nil => simp at hi
  | cons x rest ih =>
    cases x with
    | str b =>
      rw [catSuffix] at h
      cases ht : catSuffix rest s with
      | none => rw [ht] at h; simp at h
      | some t2 =>
        rw [ht] at h
        simp only [Option.some_inj] at h
        subst h
        cases i with
        | zero =>
          simp only [List.getElem?_cons_zero, Option.some_inj] at hi
          rw [← (Cell.str.injEq _ _).mp hi.symm]
          simp
        | succ j =>
          simp only [List.getElem?_cons_succ] at hi ⊢
          exact ih ht hi
    | num n => simp [catSuffix] at h
    | timestamp t2 => simp [catSuffix] at h
    | nan => simp [catSuffix] at h

theorem catSuffix_isStr {l : List Cell} {s : String} {t : List Cell}
    (h : catSuffix l s = some t) {i : Nat} (hi : i < l.length) :
    ∃ a, l[i]? = some (Cell.str a) := by
  induction l generalizing t i with
  | nil => simp at hi
  | cons x rest ih =>
    cases x with
    | str b =>
      rw [catSuffix] at h
      cases ht : catSuffix rest s with
      | none => rw [ht] at h; simp at h
      | some t2 =>
        cases i with
        | zero => exact ⟨b, by simp⟩
        | succ j =>
          simp only [List.getElem?_cons_succ]
          exact ih ht (by simpa using Nat.lt_of_succ_lt_succ (by simpa using hi))
    | num n => simp [catSuffix] at h
    | timestamp t2 => simp [catSuffix] at h
    | nan => simp [catSuffix] at h

/-- `catSuffix` succeeds when every cell is a string. -/
theorem catSuffix_isSome {l : List Cell} (s : String)
    (h : ∀ x, x ∈ l → ∃ a, x = Cell.str a) : (catSuffix l s).isSome = true := by
  induction l with
  | nil => simp [catSuffix]
  | cons x rest ih =>
    obtain ⟨a, rfl⟩ := h x (List.mem_cons_self _ _)
    rw [catSuffix]
    cases ht : catSuffix rest s with
    | none =>
      have := ih (fun y hy => h y (List.mem_cons_of_mem _ hy))
      rw [ht] at this
      simp at this
    | some t2 => simp

theorem getElem?_replicate_lt {α : Type} {n i : Nat} (a : α) (h : i < n) :
    (List.replicate n a)[i]? = some a := by
  rw [List.getElem?_eq_getElem (by simpa using h)]
  simp

/-! Counting lemmas used for the column-arity claims. -/

theorem filter_length_map_fst {l : List (String × List Cell)} (q : String → Bool) :
    (l.filter (fun p => q p.1)).length = ((l.map Prod.fst).filter q).length := by
  induction l with
  | nil => rfl
  | cons p rest ih =>
    obtain ⟨k, w⟩ := p
    by_cases hq : q k = true
    · simp [List.filter_cons, hq, ih]
    · simp only [Bool.not_eq_true] at hq
      simp [List.filter_cons, hq, ih]

theorem filter_ne_length_add {kl : List String} {b : String}
    (hn : kl.Nodup) (hb : b ∈ kl) :
    (kl.filter (fun x => decide (x ≠ b))).length + 1 = kl.length := by
  induction kl with
  | nil => simp at hb
  | cons k rest ih =>
    rw [List.nodup_cons] at hn
    by_cases hk : k = b
    · subst hk
      have hrest : rest.filter (fun x => decide (x ≠ k)) = rest := by
        apply List.filter_eq_self.mpr
        intro x hx
        simp only [decide_eq_true_iff]
        intro he
        exact hn.1 (he ▸ hx)
      rw [List.filter_cons, if_neg (by simp), hrest]
      simp
    · have hb2 : b ∈ rest := by
        rcases List.mem_cons.mp hb with h | h
        · exact absurd h.symm hk
        · exact h
      have := ih hn.2 hb2
      simp only [List.filter_cons, decide_eq_true_iff]
      rw [if_pos (by simpa using hk)]
      simp only [List.length_cons]
      omega

theorem filter_two_length_add {kl : List String} {a b : String}
    (hn : kl.Nodup) (ha : a ∈ kl) (hb : b ∈ kl) (hab : a ≠ b) :
    (kl.filter (fun x => decide (x ∉ [a, b]))).length + 2 = kl.length := by
  induction kl with
  | nil => simp at ha
  | cons k rest ih =>
    rw [List.nodup_cons] at hn
    by_cases hka : k = a
    · have ha2 : a ∉ rest := by rw [← hka]; exact hn.1
      have hb2 : b ∈ rest := by
        rcases List.mem_cons.mp hb with h | h
        · exact absurd (h.trans hka) (Ne.symm hab)
        · exact h
      have hcong : rest.filter (fun x => decide (x ∉ [a, b]))
          = rest.filter (fun x => decide (x ≠ b)) := by
        apply List.filter_congr
        intro x hx
        have hxa : x ≠ a := fun he => ha2 (he ▸ hx)
        simp [hxa]
      rw [List.filter_cons, if_neg (by simp [hka]), hcong]
      have h3 := filter_ne_length_add hn.2 hb2
      simp only [List.length_cons]
      omega
    · by_cases hkb : k = b
      · have hb2 : b ∉ rest := by rw [← hkb]; exact hn.1
        have ha2 : a ∈ rest := by
          rcases List.mem_cons.mp ha with h | h
          · exact absurd (h.trans hkb) hab
          · exact h
        have hcong : rest.filter (fun x => decide (x ∉ [a, b]))
            = rest.filter (fun x => decide (x ≠ a)) := by
          apply List.filter_congr
          intro x hx
          have hxb : x ≠ b := fun he => hb2 (he ▸ hx)
          simp [hxb]
        rw [List.filter_cons, if_neg (by simp [hkb]), hcong]
        have h3 := filter_ne_length_add hn.2 ha2
        simp only [List.length_cons]
        omega
      · have ha2 : a ∈ rest := by
          rcases List.mem_cons.mp ha with h | h
          · exact absurd h.symm hka
          · exact h
        have hb2 : b ∈ rest := by
          rcases List.mem_cons.mp hb with h | h
          · exact absurd h.symm hkb
          · exact h
        have h3 := ih hn.2 ha2 hb2
        rw [List.filter_cons, if_pos (by simp [hka, hkb])]
        simp only [List.length_cons]
        omega

/-! ## Claims -/

/-- Claim C5 counterexample: `retrieve_historical_price` does not treat a
non-2xx status as a failure.  It never calls `raise_for_status`, so the
parsed JSON body of a non-2xx response is processed as data: on a non-2xx
response carrying a well-formed one-row price array the function logs no
error and returns a table, not an absent result — refuting the claim that
every retrieval function logs the error and returns an absent result on
every HTTP failure including a non-2xx status. -/
theorem claim_C5_counterexample :
    (retrieve_historical_price "US" "AAPL" "2024-01-01" "key"
        (historicalTransport (HttpResult.response false (JsonValue.jlist
          [[("date", Cell.str "d"), ("open", Cell.num 1), ("high", Cell.num 2),
            ("low", Cell.num 1), ("close", Cell.num 2), ("adjusted_close", Cell.num 2),
            ("volume", Cell.num 100)]])))).logs = []
  ∧ ((retrieve_historical_price "US" "AAPL" "2024-01-01" "key"
        (historicalTransport (HttpResult.response false (JsonValue.jlist
          [[("date", Cell.str "d"), ("open", Cell.num 1), ("high", Cell.num 2),
            ("low", Cell.num 1), ("close", Cell.num 2), ("adjusted_close", Cell.num 2),
            ("volume", Cell.num 100)]])))).result).isSome = true :=
  ⟨by decide, by decide⟩

/-- Claim C5 (amended): `retrieve_tickers`, `retrieve_exchanges` and
`retrieve_daily_price` reach the provider through `_make_api_request`, whose
`raise_for_status` turns a non-2xx response into a `RequestException`: for
them every HTTP/network failure including a non-2xx status yields an error
log and an absent result (`retrieve_daily_price` additionally emits its
no-data warning after the error).  `retrieve_historical_price` logs an error
and returns an absent result on a transport-level failure, but — lacking
`raise_for_status` — it processes the parseable body of a non-2xx response
as data.  In every case no exception propagates to the caller (the functions
are total). -/
theorem claim_C5_amended (api_key exchange ticker date_to : String) (now : Nat)
    (body : JsonValue) :
    retrieve_tickers api_key exchange now (helperTransport HttpResult.transportError)
        = ⟨[LogLevel.error], none⟩
  ∧ retrieve_tickers api_key exchange now
        (helperTransport (HttpResult.response false body))
        = ⟨[LogLevel.error], none⟩
  ∧ retrieve_exchanges api_key now (helperTransport HttpResult.transportError)
        = ⟨[LogLevel.error], none⟩
  ∧ retrieve_exchanges api_key now (helperTransport (HttpResult.response false body))
        = ⟨[LogLevel.error], none⟩
  ∧ retrieve_daily_price exchange api_key (helperTransport HttpResult.transportError)
        = ⟨[LogLevel.error, LogLevel.warning], none⟩
  ∧ retrieve_daily_price exchange api_key
        (helperTransport (HttpResult.response false body))
        = ⟨[LogLevel.error, LogLevel.warning], none⟩
  ∧ retrieve_historical_price exchange ticker date_to api_key
        (historicalTransport HttpResult.transportError)
        = ⟨[LogLevel.error], none⟩ :=
  ⟨rfl, rfl, rfl, rfl, rfl, rfl, rfl⟩

/-- Claim C7: a historical-price response that parses to an empty DataFrame
makes the function log at debug level and return an absent result; no error
is logged and no exception is raised (the outcome is exactly
`⟨[debug], none⟩`). -/
theorem claim_C7 (exchange ticker date_to eodhd_api : String) (rows : List Row)
    (h : (fromRecords rows).isEmpty = true) :
    retrieve_historical_price exchange ticker date_to eodhd_api
      (ApiResponse.json (JsonValue.jlist rows)) = ⟨[LogLevel.debug], none⟩ := by
  unfold retrieve_historical_price
  simp [h]

theorem claim_C7_witness :
    (fromRecords ([] : List Row)).isEmpty = true
  ∧ retrieve_historical_price "US" "AAPL" "2024-01-01" "key"
      (ApiResponse.json (JsonValue.jlist [])) = ⟨[LogLevel.debug], none⟩ :=
  ⟨by decide, claim_C7 "US" "AAPL" "2024-01-01" "key" [] (by decide)⟩

/-- Claim C2 counterexample: an empty provider exchange-list response does NOT
yield a 2-row table of the manual US entries; `retrieve_exchanges` returns an
absent result, because `if not data: return None` runs before the manual rows
are built. -/
theorem claim_C2_counterexample :
    (retrieve_exchanges "api_key" 0 (ApiResponse.json (JsonValue.jlist []))).result
      = none := rfl

/-- Claim C2 (amended): when the provider exchange-list response is empty (or
otherwise falsy), exchange retrieval returns an absent result; the two manual
US entries are not returned. -/
theorem claim_C2_amended (api_key : String) (now : Nat) (v : JsonValue)
    (h : pyTruthy v = false) :
    (retrieve_exchanges api_key now (ApiResponse.json v)).result = none := by
  unfold retrieve_exchanges make_api_request
  simp [h]

theorem claim_C2_amended_witness :
    pyTruthy (JsonValue.jlist []) = false
  ∧ (retrieve_exchanges "api_key" 0 (ApiResponse.json (JsonValue.jlist []))).result
      = none :=
  ⟨rfl, claim_C2_amended "api_key" 0 (JsonValue.jlist []) rfl⟩

/-- Claim C1: for a non-empty exchange-list response the retrieval succeeds,
the returned table has exactly `provider rows + 2` rows, the `Source` column
is `"EoDHD.com"` on every provider row followed by `"Manual_Input"` on the
two appended rows, and the two appended rows are (field by field) the NYSE
and NASDAQ records of the static `US_EXCHANGES` lookup. -/
theorem claim_C1 (api_key : String) (now : Nat) (rows : List Row) (hne : rows ≠ []) :
    (retrieve_exchanges api_key now (ApiResponse.json (JsonValue.jlist rows))).result
        = some (exchangesReshape now rows)
  ∧ (exchangesReshape now rows).nrows = rows.length + 2
  ∧ (exchangesReshape now rows).getCol "Source"
      = some (List.replicate rows.length (Cell.str "EoDHD.com")
          ++ [Cell.str "Manual_Input", Cell.str "Manual_Input"])
  ∧ (exchangesReshape now rows).cell rows.length "Code" = some (Cell.str "NYSE")
  ∧ (exchangesReshape now rows).cell (rows.length + 1) "Code" = some (Cell.str "NASDAQ")
  ∧ (∀ c, hasKey (fromRecords (manualUsRows now)).cols c = true →
      (exchangesReshape now rows).cell rows.length c
          = (fromRecords (manualUsRows now)).cell 0 c
    ∧ (exchangesReshape now rows).cell (rows.length + 1) c
          = (fromRecords (manualUsRows now)).cell 1 c) := by
  have h0 : rows.isEmpty = false := by
    cases rows with
    | nil => exact absurd rfl hne
    | cons a l => rfl
  have hres : (retrieve_exchanges api_key now (ApiResponse.json (JsonValue.jlist rows))).result
      = some (exchangesReshape now rows) := by
    unfold retrieve_exchanges make_api_request
    simp [pyTruthy, h0]
  set man := fromRecords (manualUsRows now) with hman
  set df2 := ((fromRecords rows).setColConst "Source" (Cell.str "EoDHD.com")).setColConst
      "Date_Updated" (Cell.timestamp now) with hdf2
  have hank : exchangesReshape now rows = concatDF df2 man := rfl
  have hok : ColsOk df2 :=
    colsOk_setColConst (colsOk_setColConst (colsOk_fromRecords rows) _ _) _ _
  have hn2 : df2.nrows = rows.length := by
    rw [hdf2, setColConst_nrows, setColConst_nrows, fromRecords_nrows]
  have hsrc2 : df2.getCol "Source"
      = some (List.replicate rows.length (Cell.str "EoDHD.com")) := by
    rw [hdf2, getCol_setColConst_ne _ _ (by decide)]
    have h2 := getCol_setColConst_self (fromRecords rows) "Source" (Cell.str "EoDHD.com")
    rwa [fromRecords_nrows] at h2
  have hsrcman : man.getCol "Source"
      = some [Cell.str "Manual_Input", Cell.str "Manual_Input"] := rfl
  have hcodeman : man.getCol "Code" = some [Cell.str "NYSE", Cell.str "NASDAQ"] := rfl
  refine ⟨hres, ?_, ?_, ?_, ?_, ?_⟩
  · rw [hank, concatDF_nrows, hn2]
    rfl
  · rw [hank, concatDF_getCol_both hsrc2 hsrcman]
  · have h3 := concatDF_cell_right hok hcodeman 0
    rw [hn2] at h3
    rw [hank]
    simpa using h3
  · have h3 := concatDF_cell_right hok hcodeman 1
    rw [hn2] at h3
    rw [hank]
    simpa using h3
  · intro c hc
    have hc2 : (man.getCol c).isSome = true := hc
    obtain ⟨w, hw⟩ := Option.isSome_iff_exists.mp hc2
    constructor
    · have h3 := concatDF_cell_right hok hw 0
      rw [hn2, Nat.add_zero] at h3
      rw [hank, h3]
      show w[0]? = man.cell 0 c
      unfold DataFrame.cell
      rw [hw]
      rfl
    · have h3 := concatDF_cell_right hok hw 1
      rw [hn2] at h3
      rw [hank, h3]
      show w[1]? = man.cell 1 c
      unfold DataFrame.cell
      rw [hw]
      rfl

theorem claim_C1_witness :
    (retrieve_exchanges "key" 0
        (ApiResponse.json (JsonValue.jlist [[("Code", Cell.str "LSE")]]))).result
        = some (exchangesReshape 0 [[("Code", Cell.str "LSE")]])
  ∧ (exchangesReshape 0 [[("Code", Cell.str "LSE")]]).nrows = 1 + 2
  ∧ (exchangesReshape 0 [[("Code", Cell.str "LSE")]]).cell 1 "Code"
      = some (Cell.str "NYSE") := by
  have h := claim_C1 "key" 0 [[("Code", Cell.str "LSE")]] (by decide)
  exact ⟨h.1, h.2.1, h.2.2.2.1⟩

/-- If a frame has more than 8 columns, the positional relabeling with the
truncated name list `PRICE_COLUMNS[:len(df.columns)]` raises a length
mismatch. -/
theorem setColumns_take_none {df : DataFrame} (h : 8 < df.cols.length) :
    df.setColumns (PRICE_COLUMNS.take df.cols.length) = none := by
  apply setColumns_eq_none
  rw [List.length_take]
  have h8 : PRICE_COLUMNS.length = 8 := rfl
  omega

/-- Claim C9: a non-empty historical-price response whose rows together carry
more than 7 fields, none of them named `Ticker_ID` (so that appending the
synthesized column yields more than 8 columns), makes the positional
relabeling fail; the exception is caught, an error is logged, and the
function returns an absent result. -/
theorem claim_C9 (exchange ticker date_to eodhd_api : String) (rows : List Row)
    (h7 : 7 < (keyUnion rows).length) (htid : "Ticker_ID" ∉ keyUnion rows) :
    retrieve_historical_price exchange ticker date_to eodhd_api
      (ApiResponse.json (JsonValue.jlist rows)) = ⟨[LogLevel.error], none⟩ := by
  have hne : rows ≠ [] := by
    intro he
    rw [he] at h7
    simp [keyUnion, dedupAux] at h7
  have hlen0 : rows.length ≠ 0 := fun he => hne (List.length_eq_zero.mp he)
  have hcols0 : (fromRecords rows).cols.length = (keyUnion rows).length := by
    unfold fromRecords
    simp
  have hemp : (fromRecords rows).isEmpty = false := by
    unfold DataFrame.isEmpty
    have h1 : ((fromRecords rows).nrows == 0) = false := by
      rw [fromRecords_nrows]
      simpa using hlen0
    rw [h1]
    simp only [Bool.false_or]
    cases hcl : (fromRecords rows).cols with
    | nil =>
      exfalso
      rw [hcl] at hcols0
      simp at hcols0
      omega
    | cons p l => rfl
  have hkeyf : hasKey (fromRecords rows).cols "Ticker_ID" = false := by
    cases hb : hasKey (fromRecords rows).cols "Ticker_ID" with
    | false => rfl
    | true => exact absurd ((fromRecords_hasKey rows _).mp hb) htid
  have hbig : 8 < ((fromRecords rows).setColConst "Ticker_ID"
      (Cell.str (replaceDot (ticker ++ "." ++ exchange)))).cols.length := by
    unfold DataFrame.setColConst
    rw [setCol_cols_append _ hkeyf]
    rw [List.length_append]
    simp only [List.length_singleton]
    omega
  have hres : historicalReshape exchange ticker rows = none := by
    unfold historicalReshape
    simp only [setColumns_take_none hbig]
  unfold retrieve_historical_price
  simp [hemp, hres]

theorem claim_C9_witness :
    7 < (keyUnion [[("date", Cell.str "d"), ("open", Cell.num 1), ("high", Cell.num 2),
        ("low", Cell.num 1), ("close", Cell.num 2), ("adjusted_close", Cell.num 2),
        ("volume", Cell.num 100), ("extra", Cell.num 5)]]).length
  ∧ "Ticker_ID" ∉ keyUnion [[("date", Cell.str "d"), ("open", Cell.num 1),
        ("high", Cell.num 2), ("low", Cell.num 1), ("close", Cell.num 2),
        ("adjusted_close", Cell.num 2), ("volume", Cell.num 100), ("extra", Cell.num 5)]]
  ∧ retrieve_historical_price "US" "AAPL" "2024-01-01" "key"
      (ApiResponse.json (JsonValue.jlist [[("date", Cell.str "d"), ("open", Cell.num 1),
        ("high", Cell.num 2), ("low", Cell.num 1), ("close", Cell.num 2),
        ("adjusted_close", Cell.num 2), ("volume", Cell.num 100), ("extra", Cell.num 5)]]))
      = ⟨[LogLevel.error], none⟩ :=
  ⟨by decide, by decide,
   claim_C9 "US" "AAPL" "2024-01-01" "key" _ (by decide) (by decide)⟩

/-- `"Ticker_ID"` sits at index 7 of `PRICE_COLUMNS`, so it only survives a
truncation keeping at least 8 names. -/
theorem tid_mem_take {k : Nat} (h : "Ticker_ID" ∈ PRICE_COLUMNS.take k) : 8 ≤ k := by
  by_contra h2
  push_neg at h2
  interval_cases k <;> simp [PRICE_COLUMNS] at h

/-- Claim C4 counterexample: a historical-price response whose single row
already carries a `Ticker_ID` field (plus 7 others) reshapes successfully,
but the returned `Ticker_ID` column holds the row's last field (`"zzz"`), not
the provider ticker identifier `"AAPL.US"` with `.` replaced by `_`: the
in-place column replacement breaks the positional relabeling. -/
theorem claim_C4_counterexample :
    ((retrieve_historical_price "US" "AAPL" "2024-01-01" "key"
        (ApiResponse.json (JsonValue.jlist [[("Ticker_ID", Cell.str "weird"),
          ("a", Cell.str "a"), ("b", Cell.str "b"), ("c", Cell.str "c"),
          ("d", Cell.str "d"), ("e", Cell.str "e"), ("f", Cell.str "f"),
          ("g", Cell.str "zzz")]]))).result.bind
        (fun df => df.cell 0 "Ticker_ID")) = some (Cell.str "zzz")
  ∧ Cell.str "zzz" ≠ Cell.str (replaceDot ("AAPL" ++ "." ++ "US")) :=
  ⟨by decide, by decide⟩

/-- Claim C4 (amended): for every historical-price retrieval whose response
reshapes successfully and whose rows do not themselves contain a field named
`Ticker_ID`, every output row's `Ticker_ID` equals the provider ticker
identifier (ticker joined to exchange by a period) with every `.` replaced by
`_`. -/
theorem claim_C4_amended (exchange ticker date_to eodhd_api : String) (rows : List Row)
    (htid : "Ticker_ID" ∉ keyUnion rows)
    (hs : ((retrieve_historical_price exchange ticker date_to eodhd_api
        (ApiResponse.json (JsonValue.jlist rows))).result).isSome = true) :
    ∀ i, i < rows.length →
      ((retrieve_historical_price exchange ticker date_to eodhd_api
          (ApiResponse.json (JsonValue.jlist rows))).result).bind
        (fun df => df.cell i "Ticker_ID")
      = some (Cell.str (replaceDot (ticker ++ "." ++ exchange))) := by
  intro i hi
  have hkeyf : hasKey (fromRecords rows).cols "Ticker_ID" = false := by
    cases hb : hasKey (fromRecords rows).cols "Ticker_ID" with
    | false => rfl
    | true => exact absurd ((fromRecords_hasKey rows _).mp hb) htid
  set wI := (fromRecords rows).setColConst "Ticker_ID"
      (Cell.str (replaceDot (ticker ++ "." ++ exchange))) with hwI
  have hwcols : wI.cols
      = (fromRecords rows).cols
        ++ [("Ticker_ID", List.replicate rows.length
              (Cell.str (replaceDot (ticker ++ "." ++ exchange))))] := by
    rw [hwI]
    unfold DataFrame.setColConst
    rw [fromRecords_nrows]
    exact setCol_cols_append _ hkeyf
  simp only [retrieve_historical_price] at hs ⊢
  by_cases hemp : (fromRecords rows).isEmpty = true
  · rw [if_pos hemp] at hs
    simp at hs
  · rw [if_neg hemp] at hs ⊢
    cases hr : historicalReshape exchange ticker rows with
    | none => simp [hr] at hs
    | some out =>
      show out.cell i "Ticker_ID"
          = some (Cell.str (replaceDot (ticker ++ "." ++ exchange)))
      simp only [historicalReshape] at hr
      rw [← hwI] at hr
      cases hsc : wI.setColumns (PRICE_COLUMNS.take wI.cols.length) with
      | none =>
        rw [hsc] at hr
        simp at hr
      | some relabeled =>
        rw [hsc] at hr
        have hr2 : relabeled.select PRICE_COLUMNS_SORTED = some out := hr
        obtain ⟨hlen, hrel⟩ := setColumns_inv hsc
        have h8 : PRICE_COLUMNS.length = 8 := rfl
        rw [List.length_take, h8] at hlen
        have hk8le : wI.cols.length ≤ 8 := by
          rcases Nat.le_total wI.cols.length 8 with h | h
          · exact h
          · rw [Nat.min_eq_right h] at hlen
            omega
        have hvlen : (wI.cols.map Prod.snd).length = wI.cols.length :=
          List.length_map _ _
        have hmemTID : "Ticker_ID" ∈ PRICE_COLUMNS.take wI.cols.length := by
          have hall := (select_inv hr2).1 "Ticker_ID" (by decide)
          rw [hrel] at hall
          rw [hasKey_iff] at hall
          rw [List.map_fst_zip _ _ (by rw [hvlen, List.length_take, h8]; exact Nat.min_le_left _ _)] at hall
          exact hall
        have hK8 : wI.cols.length = 8 := Nat.le_antisymm hk8le (tid_mem_take hmemTID)
        have hcols0len : (fromRecords rows).cols.length = 7 := by
          have h2 : wI.cols.length = (fromRecords rows).cols.length + 1 := by
            rw [hwcols, List.length_append]
            rfl
          omega
        have hvals : relabeled.getCol "Ticker_ID"
            = some (List.replicate rows.length
                (Cell.str (replaceDot (ticker ++ "." ++ exchange)))) := by
          rw [hrel]
          show lookupKV ((PRICE_COLUMNS.take wI.cols.length).zip (wI.cols.map Prod.snd))
              "Ticker_ID" = _
          rw [hK8]
          have htake : PRICE_COLUMNS.take 8 = PRICE_COLUMNS := rfl
          rw [htake]
          rw [lookupKV_zip PRICE_COLUMNS (wI.cols.map Prod.snd) "Ticker_ID" 7
              (by decide) (by rw [hvlen, hK8]; rfl) (by decide)]
          rw [hwcols, List.map_append]
          rw [List.getElem?_append_right (by simp [hcols0len])]
          simp [hcols0len]
        have hout : out.getCol "Ticker_ID"
            = some (List.replicate rows.length
                (Cell.str (replaceDot (ticker ++ "." ++ exchange)))) := by
          rw [select_getCol hr2 (by decide : "Ticker_ID" ∈ PRICE_COLUMNS_SORTED)]
          exact hvals
        unfold DataFrame.cell
        rw [hout]
        show (List.replicate rows.length
            (Cell.str (replaceDot (ticker ++ "." ++ exchange))))[i]? = _
        exact getElem?_replicate_lt _ hi

theorem claim_C4_amended_witness :
    "Ticker_ID" ∉ keyUnion [[("date", Cell.str "d"), ("open", Cell.num 1),
        ("high", Cell.num 2), ("low", Cell.num 1), ("close", Cell.num 2),
        ("adjusted_close", Cell.num 2), ("volume", Cell.num 100)]]
  ∧ ((retrieve_historical_price "US" "AAPL" "2024-01-01" "key"
        (ApiResponse.json (JsonValue.jlist [[("date", Cell.str "d"),
          ("open", Cell.num 1), ("high", Cell.num 2), ("low", Cell.num 1),
          ("close", Cell.num 2), ("adjusted_close", Cell.num 2),
          ("volume", Cell.num 100)]]))).result).bind
      (fun df => df.cell 0 "Ticker_ID")
      = some (Cell.str (replaceDot ("AAPL" ++ "." ++ "US"))) :=
  ⟨by decide,
   claim_C4_amended "US" "AAPL" "2024-01-01" "key" _ (by decide) (by decide) 0
     (by decide)⟩

/-- Claim C3: for every row of a ticker-retrieval response that reshapes
successfully, the output `Ticker_ID` equals the provider `Code` field
concatenated with `_` and the exchange argument, and `EoDHD_Exchange` equals
`"US"` when the row's `Exchange` field is `"NYSE"` or `"NASDAQ"` and equals
the row's `Exchange` field unchanged otherwise. -/
theorem claim_C3 (api_key exchange : String) (now : Nat) (rows : List Row)
    (hs : ((retrieve_tickers api_key exchange now
        (ApiResponse.json (JsonValue.jlist rows))).result).isSome = true) :
    ∀ i, ∀ h : i < rows.length,
      (∀ c, lookupKV (rows.get ⟨i, h⟩) "Code" = some (Cell.str c) →
        ((retrieve_tickers api_key exchange now
            (ApiResponse.json (JsonValue.jlist rows))).result).bind
          (fun df => df.cell i "Ticker_ID")
          = some (Cell.str (c ++ "_" ++ exchange)))
    ∧ (∀ e, lookupKV (rows.get ⟨i, h⟩) "Exchange" = some (Cell.str e) →
        ((retrieve_tickers api_key exchange now
            (ApiResponse.json (JsonValue.jlist rows))).result).bind
          (fun df => df.cell i "EoDHD_Exchange")
          = some (Cell.str (if e = "NYSE" ∨ e = "NASDAQ" then "US" else e))) := by
  intro i h
  have hrowi : rows[i]? = some (rows.get ⟨i, h⟩) := List.getElem?_eq_getElem h
  simp only [retrieve_tickers, make_api_request] at hs ⊢
  by_cases hemp : rows.isEmpty = true
  · rw [if_pos hemp] at hs
    simp at hs
  · rw [if_neg hemp] at hs ⊢
    cases hr : tickersReshape exchange now rows with
    | none => simp [hr] at hs
    | some df =>
      set df2 := ((fromRecords rows).setColConst "Source"
          (Cell.str ("EoDHD.com - Exchange " ++ exchange))).setColConst "Date_Updated"
          (Cell.timestamp now) with hdf2
      simp only [tickersReshape] at hr
      rw [← hdf2] at hr
      rw [Option.bind_eq_some] at hr
      obtain ⟨codes, hcode, hr⟩ := hr
      rw [Option.bind_eq_some] at hr
      obtain ⟨tids, hcat, hr⟩ := hr
      rw [Option.bind_eq_some] at hr
      obtain ⟨exs, hex, hsel⟩ := hr
      have hcode0 : (fromRecords rows).getCol "Code" = some codes := by
        rw [hdf2] at hcode
        rw [getCol_setColConst_ne _ _ (by decide),
            getCol_setColConst_ne _ _ (by decide)] at hcode
        exact hcode
      have hcodes : codes = rows.map (fun r => (lookupKV r "Code").getD Cell.nan) := by
        rw [fromRecords_getCol] at hcode0
        split at hcode0
        · exact (Option.some_inj.mp hcode0).symm
        · simp at hcode0
      have hex0 : (fromRecords rows).getCol "Exchange" = some exs := by
        rw [getCol_setCol_ne _ _ (by decide)] at hex
        rw [hdf2] at hex
        rw [getCol_setColConst_ne _ _ (by decide),
            getCol_setColConst_ne _ _ (by decide)] at hex
        exact hex
      have hexs : exs = rows.map (fun r => (lookupKV r "Exchange").getD Cell.nan) := by
        rw [fromRecords_getCol] at hex0
        split at hex0
        · exact (Option.some_inj.mp hex0).symm
        · simp at hex0
      constructor
      · intro c hc
        show df.cell i "Ticker_ID" = some (Cell.str (c ++ "_" ++ exchange))
        have hgc : df.getCol "Ticker_ID" = some tids := by
          rw [select_getCol hsel (by decide)]
          rw [getCol_setCol_ne _ _ (by decide)]
          exact getCol_setCol_self _ _ _
        unfold DataFrame.cell
        rw [hgc]
        show tids[i]? = some (Cell.str (c ++ "_" ++ exchange))
        have hci : codes[i]? = some (Cell.str c) := by
          rw [hcodes, List.getElem?_map, hrowi]
          show some ((lookupKV (rows.get ⟨i, h⟩) "Code").getD Cell.nan)
              = some (Cell.str c)
          rw [hc]
          rfl
        rw [catSuffix_getElem hcat hci, String.append_assoc]
      · intro e he
        show df.cell i "EoDHD_Exchange"
            = some (Cell.str (if e = "NYSE" ∨ e = "NASDAQ" then "US" else e))
        have hgc : df.getCol "EoDHD_Exchange" = some (exs.map usCollapse) := by
          rw [select_getCol hsel (by decide)]
          exact getCol_setCol_self _ _ _
        unfold DataFrame.cell
        rw [hgc]
        show (exs.map usCollapse)[i]? = _
        rw [List.getElem?_map, hexs, List.getElem?_map, hrowi]
        show some (usCollapse ((lookupKV (rows.get ⟨i, h⟩) "Exchange").getD Cell.nan)) = _
        rw [he]
        show some (usCollapse (Cell.str e)) = _
        by_cases hu : e = "NYSE" ∨ e = "NASDAQ" <;>
          simp [usCollapse, usKeys, US_EXCHANGES, hu]

theorem claim_C3_witness :
    ((retrieve_tickers "key" "LSE" 0 (ApiResponse.json (JsonValue.jlist
        [[("Code", Cell.str "VOD"), ("Name", Cell.str "Vodafone"),
          ("Country", Cell.str "UK"), ("Exchange", Cell.str "LSE"),
          ("Currency", Cell.str "GBp"), ("Type", Cell.str "Common Stock"),
          ("Isin", Cell.str "GB00BH4HKS39")]]))).result).bind
      (fun df => df.cell 0 "Ticker_ID") = some (Cell.str ("VOD" ++ "_" ++ "LSE"))
  ∧ ((retrieve_tickers "key" "LSE" 0 (ApiResponse.json (JsonValue.jlist
        [[("Code", Cell.str "VOD"), ("Name", Cell.str "Vodafone"),
          ("Country", Cell.str "UK"), ("Exchange", Cell.str "LSE"),
          ("Currency", Cell.str "GBp"), ("Type", Cell.str "Common Stock"),
          ("Isin", Cell.str "GB00BH4HKS39")]]))).result).bind
      (fun df => df.cell 0 "EoDHD_Exchange")
      = some (Cell.str (if "LSE" = "NYSE" ∨ "LSE" = "NASDAQ" then "US" else "LSE")) := by
  have h := claim_C3 "key" "LSE" 0
    [[("Code", Cell.str "VOD"), ("Name", Cell.str "Vodafone"),
      ("Country", Cell.str "UK"), ("Exchange", Cell.str "LSE"),
      ("Currency", Cell.str "GBp"), ("Type", Cell.str "Common Stock"),
      ("Isin", Cell.str "GB00BH4HKS39")]] (by decide) 0 (by decide)
  exact ⟨h.1 "VOD" (by decide), h.2 "LSE" (by decide)⟩

/-- Claim C8 counterexample: a daily-price response whose single row already
carries a `Ticker_ID` field (plus `code`, `exchange_short_name` and 7 data
fields) reshapes successfully, but the returned `Ticker_ID` column holds the
row's last field (`"zzz"`) instead of `code + "_" + exchange` (`"abc_US"`):
the in-place replacement leaves the synthesized column in a non-final
position, so the positional relabeling mislabels it. -/
theorem claim_C8_counterexample :
    ((retrieve_daily_price "US" "key" (ApiResponse.json (JsonValue.jlist
        [[("code", Cell.str "abc"), ("exchange_short_name", Cell.str "US"),
          ("Ticker_ID", Cell.str "weird"),
          ("d1", Cell.str "1"), ("d2", Cell.str "2"), ("d3", Cell.str "3"),
          ("d4", Cell.str "4"), ("d5", Cell.str "5"), ("d6", Cell.str "6"),
          ("d7", Cell.str "zzz")]]))).result.bind
      (fun df => df.cell 0 "Ticker_ID")) = some (Cell.str "zzz")
  ∧ Cell.str "zzz" ≠ Cell.str ("abc" ++ "_" ++ "US") :=
  ⟨by decide, by decide⟩

/-- Claim C8 (amended): for every daily-price retrieval whose response
reshapes successfully and whose rows do not themselves contain a field named
`Ticker_ID`, the returned table has no `code` and no `exchange_short_name`
column, its columns are exactly `PRICE_COLUMNS` in that (unsorted) order —
the value is produced by re-projecting an internal reorder to
`PRICE_COLUMNS_SORTED` — and the `Ticker_ID` column equals the provider
`code` field concatenated with `_` and the exchange argument. -/
theorem claim_C8_amended (exchange api_key : String) (rows : List Row)
    (htid : "Ticker_ID" ∉ keyUnion rows)
    (hs : ((retrieve_daily_price exchange api_key
        (ApiResponse.json (JsonValue.jlist rows))).result).isSome = true) :
    ((retrieve_daily_price exchange api_key
        (ApiResponse.json (JsonValue.jlist rows))).result).map
      (fun df => df.cols.map Prod.fst) = some PRICE_COLUMNS
  ∧ ((retrieve_daily_price exchange api_key
        (ApiResponse.json (JsonValue.jlist rows))).result).map
      (fun df => hasKey df.cols "code") = some false
  ∧ ((retrieve_daily_price exchange api_key
        (ApiResponse.json (JsonValue.jlist rows))).result).map
      (fun df => hasKey df.cols "exchange_short_name") = some false
  ∧ ∀ i, ∀ h : i < rows.length,
      ∀ s, lookupKV (rows.get ⟨i, h⟩) "code" = some (Cell.str s) →
        ((retrieve_daily_price exchange api_key
            (ApiResponse.json (JsonValue.jlist rows))).result).bind
          (fun df => df.cell i "Ticker_ID")
          = some (Cell.str (s ++ "_" ++ exchange)) := by
  simp only [retrieve_daily_price, make_api_request] at hs ⊢
  by_cases hemp : rows.isEmpty = true
  · have hf : pyTruthy (JsonValue.jlist rows) = false := by simp [pyTruthy, hemp]
    rw [if_neg (by simp [hf])] at hs
    simp at hs
  · have htr : pyTruthy (JsonValue.jlist rows) = true := by
      simp only [pyTruthy, Bool.not_eq_true']
      cases hb : rows.isEmpty with
      | false => rfl
      | true => exact absurd hb hemp
    rw [if_pos htr] at hs ⊢
    cases hd : dailyReshape exchange rows with
    | none => simp [hd] at hs
    | some df =>
      simp only [dailyReshape] at hd
      rw [Option.bind_eq_some] at hd
      obtain ⟨codes, hcode, hd⟩ := hd
      rw [Option.bind_eq_some] at hd
      obtain ⟨tids, hcat, hd⟩ := hd
      rw [Option.bind_eq_some] at hd
      obtain ⟨dfd, hdrop, hd⟩ := hd
      rw [Option.bind_eq_some] at hd
      obtain ⟨df3, hsetc, hd⟩ := hd
      rw [Option.bind_eq_some] at hd
      obtain ⟨df4, hsel4, hsel⟩ := hd
      have hkeys : df.cols.map Prod.fst = PRICE_COLUMNS := select_colKeys hsel
      refine ⟨?_, ?_, ?_, ?_⟩
      · show some (df.cols.map Prod.fst) = some PRICE_COLUMNS
        rw [hkeys]
      · show some (hasKey df.cols "code") = some false
        cases hb : hasKey df.cols "code" with
        | false => rfl
        | true =>
          have h2 := hasKey_iff.mp hb
          rw [hkeys] at h2
          simp [PRICE_COLUMNS] at h2
      · show some (hasKey df.cols "exchange_short_name") = some false
        cases hb : hasKey df.cols "exchange_short_name" with
        | false => rfl
        | true =>
          have h2 := hasKey_iff.mp hb
          rw [hkeys] at h2
          simp [PRICE_COLUMNS] at h2
      · intro i h s hcs
        have hrowi : rows[i]? = some (rows.get ⟨i, h⟩) := List.getElem?_eq_getElem h
        show df.cell i "Ticker_ID" = some (Cell.str (s ++ "_" ++ exchange))
        have hkeyf : hasKey (fromRecords rows).cols "Ticker_ID" = false := by
          cases hb : hasKey (fromRecords rows).cols "Ticker_ID" with
          | false => rfl
          | true => exact absurd ((fromRecords_hasKey rows _).mp hb) htid
        have hwcols : ((fromRecords rows).setCol "Ticker_ID" tids).cols
            = (fromRecords rows).cols ++ [("Ticker_ID", tids)] :=
          setCol_cols_append tids hkeyf
        obtain ⟨hall, hdfd⟩ := dropCols_inv hdrop
        have hfapp : dfd.cols
            = (fromRecords rows).cols.filter
                (fun p => decide (p.1 ∉ (["code", "exchange_short_name"] : List String)))
              ++ [("Ticker_ID", tids)] := by
          rw [hdfd]
          show (((fromRecords rows).setCol "Ticker_ID" tids).cols.filter
              (fun p => decide (p.1 ∉ (["code", "exchange_short_name"] : List String)))) = _
          rw [hwcols, List.filter_append]
          congr 1
        obtain ⟨hlen8, hdf3⟩ := setColumns_inv hsetc
        have h8 : PRICE_COLUMNS.length = 8 := rfl
        have hflen : ((fromRecords rows).cols.filter
            (fun p => decide (p.1 ∉ (["code", "exchange_short_name"] : List String)))).length
            = 7 := by
          have h2 : dfd.cols.length = 8 := by omega
          rw [hfapp, List.length_append] at h2
          simpa using h2
        have hvals : df3.getCol "Ticker_ID" = some tids := by
          rw [hdf3]
          show lookupKV (PRICE_COLUMNS.zip (dfd.cols.map Prod.snd)) "Ticker_ID" = some tids
          rw [lookupKV_zip PRICE_COLUMNS (dfd.cols.map Prod.snd) "Ticker_ID" 7
              (by decide) (by rw [List.length_map]; omega) (by decide)]
          rw [hfapp, List.map_append]
          rw [List.getElem?_append_right
              (by simp only [List.length_map, hflen]; exact Nat.le_refl 7)]
          simp only [List.length_map, hflen]
          rfl
        have hout : df.getCol "Ticker_ID" = some tids := by
          rw [select_getCol hsel (by decide), select_getCol hsel4 (by decide)]
          exact hvals
        unfold DataFrame.cell
        rw [hout]
        have hcode0 : (fromRecords rows).getCol "code" = some codes := hcode
        have hcodes : codes = rows.map (fun r => (lookupKV r "code").getD Cell.nan) := by
          rw [fromRecords_getCol] at hcode0
          split at hcode0
          · exact (Option.some_inj.mp hcode0).symm
          · simp at hcode0
        have hci : codes[i]? = some (Cell.str s) := by
          rw [hcodes, List.getElem?_map, hrowi]
          show some ((lookupKV (rows.get ⟨i, h⟩) "code").getD Cell.nan)
              = some (Cell.str s)
          rw [hcs]
          rfl
        show tids[i]? = some (Cell.str (s ++ "_" ++ exchange))
        rw [catSuffix_getElem hcat hci, String.append_assoc]

theorem claim_C8_amended_witness :
    ((retrieve_daily_price "US" "key" (ApiResponse.json (JsonValue.jlist
        [[("code", Cell.str "AAPL"), ("exchange_short_name", Cell.str "US"),
          ("date", Cell.str "2024-01-02"), ("open", Cell.num 1), ("high", Cell.num 2),
          ("low", Cell.num 1), ("close", Cell.num 2), ("adjusted_close", Cell.num 2),
          ("volume", Cell.num 100)]]))).result).map
      (fun df => df.cols.map Prod.fst) = some PRICE_COLUMNS
  ∧ ((retrieve_daily_price "US" "key" (ApiResponse.json (JsonValue.jlist
        [[("code", Cell.str "AAPL"), ("exchange_short_name", Cell.str "US"),
          ("date", Cell.str "2024-01-02"), ("open", Cell.num 1), ("high", Cell.num 2),
          ("low", Cell.num 1), ("close", Cell.num 2), ("adjusted_close", Cell.num 2),
          ("volume", Cell.num 100)]]))).result).bind
      (fun df => df.cell 0 "Ticker_ID") = some (Cell.str ("AAPL" ++ "_" ++ "US")) := by
  have h := claim_C8_amended "US" "key"
    [[("code", Cell.str "AAPL"), ("exchange_short_name", Cell.str "US"),
      ("date", Cell.str "2024-01-02"), ("open", Cell.num 1), ("high", Cell.num 2),
      ("low", Cell.num 1), ("close", Cell.num 2), ("adjusted_close", Cell.num 2),
      ("volume", Cell.num 100)]] (by decide) (by decide)
  exact ⟨h.1, h.2.2.2 0 (by decide) "AAPL" (by decide)⟩

theorem select_isSome {df : DataFrame} {names : List String}
    (h : ∀ c, c ∈ names → hasKey df.cols c = true) :
    (df.select names).isSome = true := by
  rw [select_eq_some h]
  rfl

theorem filter_not_mem_length (l : List (String × List Cell)) (names : List String) :
    (l.filter (fun p => decide (p.1 ∉ names))).length
      = ((l.map Prod.fst).filter (fun x => decide (x ∉ names))).length := by
  induction l with
  | nil => rfl
  | cons p rest ih =>
    obtain ⟨k, w⟩ := p
    by_cases hq : k ∈ names
    · simp only [List.map_cons, List.filter_cons]
      rw [if_neg (by simp [hq]), if_neg (by simp [hq])]
      exact ih
    · simp only [List.map_cons, List.filter_cons]
      rw [if_pos (by simp [hq]), if_pos (by simp [hq])]
      simp only [List.length_cons]
      rw [ih]

/-- Claim C10 counterexample: a daily-price response row with exactly 9
fields including `code` and `exchange_short_name` does NOT guarantee a table:
with a numeric `code` value the string concatenation building `Ticker_ID`
raises (TypeError), the exception is caught, and the function returns an
absent result. -/
theorem claim_C10_counterexample :
    (retrieve_daily_price "US" "key" (ApiResponse.json (JsonValue.jlist
        [[("code", Cell.num 7), ("exchange_short_name", Cell.str "US"),
          ("date", Cell.str "2024-01-02"), ("open", Cell.num 1), ("high", Cell.num 2),
          ("low", Cell.num 1), ("close", Cell.num 2), ("adjusted_close", Cell.num 2),
          ("volume", Cell.num 100)]]))).result = none := by
  decide

/-- Claim C10 (amended): for a daily-price response whose rows' combined
field set `ks` contains `code` and `exchange_short_name` but no `Ticker_ID`,
and whose `code` values are strings, the reshaping — positional relabeling
and both re-projections — succeeds and a table is returned exactly when `ks`
has 9 fields; for any other field arity the reshaping raises, the exception
is caught, and the function returns an absent result. -/
theorem claim_C10_amended (exchange api_key : String) (rows : List Row) (ks : List String)
    (hk : keyUnion rows = ks)
    (hcode : "code" ∈ ks) (hesn : "exchange_short_name" ∈ ks)
    (htid : "Ticker_ID" ∉ ks)
    (hstr : ∀ r, r ∈ rows → isStrCell (lookupKV r "code") = true) :
    ((retrieve_daily_price exchange api_key
        (ApiResponse.json (JsonValue.jlist rows))).result).isSome = true
      ↔ ks.length = 9 := by
  have hne : rows ≠ [] := by
    have h2 : "code" ∈ keyUnion rows := by rw [hk]; exact hcode
    obtain ⟨r, hr, _⟩ := mem_keyUnion.mp h2
    exact List.ne_nil_of_mem hr
  have hemp : rows.isEmpty = false := by
    cases rows with
    | nil => exact absurd rfl hne
    | cons a l => rfl
  have htr : pyTruthy (JsonValue.jlist rows) = true := by
    simp [pyTruthy, hemp]
  have hkpos : 0 < ks.length := List.length_pos.mpr (List.ne_nil_of_mem hcode)
  have hcodeg : (fromRecords rows).getCol "code"
      = some (rows.map (fun r => (lookupKV r "code").getD Cell.nan)) := by
    rw [fromRecords_getCol, if_pos (by rw [hk]; exact hcode)]
  have hcats : (catSuffix (rows.map (fun r => (lookupKV r "code").getD Cell.nan))
      ("_" ++ exchange)).isSome = true := by
    apply catSuffix_isSome
    intro x hx
    obtain ⟨r, hr, rfl⟩ := List.mem_map.mp hx
    have h2 := hstr r hr
    cases hl : lookupKV r "code" with
    | none => rw [hl] at h2; simp [isStrCell] at h2
    | some cval =>
      cases cval with
      | str s => exact ⟨s, by simp [hl]⟩
      | num n => rw [hl] at h2; simp [isStrCell] at h2
      | timestamp t => rw [hl] at h2; simp [isStrCell] at h2
      | nan => rw [hl] at h2; simp [isStrCell] at h2
  obtain ⟨tids, hcat⟩ := Option.isSome_iff_exists.mp hcats
  have hkeyf : hasKey (fromRecords rows).cols "Ticker_ID" = false := by
    cases hb : hasKey (fromRecords rows).cols "Ticker_ID" with
    | false => rfl
    | true =>
      have h2 := (fromRecords_hasKey rows _).mp hb
      rw [hk] at h2
      exact absurd h2 htid
  have hwcols : ((fromRecords rows).setCol "Ticker_ID" tids).cols
      = (fromRecords rows).cols ++ [("Ticker_ID", tids)] :=
    setCol_cols_append tids hkeyf
  have hdropKey : ∀ c, c ∈ (["code", "exchange_short_name"] : List String) →
      hasKey ((fromRecords rows).setCol "Ticker_ID" tids).cols c = true := by
    intro c hcm
    rw [hasKey_iff, hwcols, List.map_append, List.mem_append]
    left
    rw [fromRecords_colKeys, hk]
    simp only [List.mem_cons, List.not_mem_nil, or_false] at hcm
    rcases hcm with rfl | rfl
    · exact hcode
    · exact hesn
  have hdropE := dropCols_eq_some hdropKey
  have hfilterlen : (((fromRecords rows).setCol "Ticker_ID" tids).cols.filter
      (fun p => decide (p.1 ∉ (["code", "exchange_short_name"] : List String)))).length
      = ks.length - 1 := by
    rw [hwcols, List.filter_append, List.length_append]
    have h1 : (([("Ticker_ID", tids)] : List (String × List Cell)).filter
        (fun p => decide (p.1 ∉ (["code", "exchange_short_name"] : List String)))).length
        = 1 := rfl
    rw [h1]
    have h3 := filter_two_length_add
      (by rw [← hk]; exact keyUnion_nodup rows) hcode hesn
      (by decide : ("code" : String) ≠ "exchange_short_name")
    have h2 : ((fromRecords rows).cols.filter
        (fun p => decide (p.1 ∉ (["code", "exchange_short_name"] : List String)))).length
        = ks.length - 2 := by
      rw [filter_not_mem_length, fromRecords_colKeys, hk]
      omega
    rw [h2]
    omega
  constructor
  · intro hsome
    simp only [retrieve_daily_price, make_api_request] at hsome
    rw [if_pos htr] at hsome
    cases hd : dailyReshape exchange rows with
    | none => simp [hd] at hsome
    | some df =>
      simp only [dailyReshape] at hd
      rw [hcodeg, Option.some_bind, hcat, Option.some_bind, hdropE, Option.some_bind] at hd
      rw [Option.bind_eq_some] at hd
      obtain ⟨df3, hsetc, _⟩ := hd
      have hlen2 : PRICE_COLUMNS.length
          = (((fromRecords rows).setCol "Ticker_ID" tids).cols.filter
              (fun p => decide (p.1 ∉ (["code", "exchange_short_name"] : List String)))).length :=
        (setColumns_inv hsetc).1
      rw [hfilterlen] at hlen2
      have h8 : PRICE_COLUMNS.length = 8 := rfl
      omega
  · intro h9
    simp only [retrieve_daily_price, make_api_request]
    rw [if_pos htr]
    have hd : (dailyReshape exchange rows).isSome = true := by
      simp only [dailyReshape]
      rw [hcodeg, Option.some_bind, hcat, Option.some_bind, hdropE, Option.some_bind]
      have hlen : PRICE_COLUMNS.length
          = (((fromRecords rows).setCol "Ticker_ID" tids).cols.filter
              (fun p => decide (p.1 ∉ (["code", "exchange_short_name"] : List String)))).length := by
        rw [hfilterlen, h9]
        rfl
      rw [@setColumns_eq_some
          ⟨((fromRecords rows).setCol "Ticker_ID" tids).nrows,
            ((fromRecords rows).setCol "Ticker_ID" tids).cols.filter
              (fun p => decide (p.1 ∉ (["code", "exchange_short_name"] : List String)))⟩
          PRICE_COLUMNS hlen]
      rw [Option.some_bind]
      dsimp only
      have hzip : ((PRICE_COLUMNS.zip
          ((((fromRecords rows).setCol "Ticker_ID" tids).cols.filter
            (fun p => decide (p.1 ∉ (["code", "exchange_short_name"] : List String)))).map
            Prod.snd))).map Prod.fst = PRICE_COLUMNS := by
        apply List.map_fst_zip
        rw [List.length_map, hfilterlen, h9]
        decide
      have hsub1 : ∀ c, c ∈ PRICE_COLUMNS_SORTED →
          hasKey (DataFrame.mk ((fromRecords rows).setCol "Ticker_ID" tids).nrows
            (PRICE_COLUMNS.zip
              ((((fromRecords rows).setCol "Ticker_ID" tids).cols.filter
                (fun p => decide (p.1 ∉ (["code", "exchange_short_name"] : List String)))).map
                Prod.snd))).cols c = true := by
        intro c hcm
        rw [hasKey_iff]
        show c ∈ (PRICE_COLUMNS.zip
            ((((fromRecords rows).setCol "Ticker_ID" tids).cols.filter
              (fun p => decide (p.1 ∉ (["code", "exchange_short_name"] : List String)))).map
              Prod.snd)).map Prod.fst
        rw [hzip]
        exact (by decide : ∀ c, c ∈ PRICE_COLUMNS_SORTED → c ∈ PRICE_COLUMNS) c hcm
      obtain ⟨df4, hdf4⟩ := Option.isSome_iff_exists.mp (select_isSome hsub1)
      rw [hdf4, Option.some_bind]
      apply select_isSome
      intro c hcm
      rw [hasKey_iff, select_colKeys hdf4]
      exact (by decide : ∀ c, c ∈ PRICE_COLUMNS → c ∈ PRICE_COLUMNS_SORTED) c hcm
    obtain ⟨df, hdf⟩ := Option.isSome_iff_exists.mp hd
    rw [hdf]
    rfl

theorem claim_C10_amended_witness :
    ((retrieve_daily_price "US" "key" (ApiResponse.json (JsonValue.jlist
        [[("code", Cell.str "AAPL"), ("exchange_short_name", Cell.str "US"),
          ("date", Cell.str "2024-01-02"), ("open", Cell.num 1), ("high", Cell.num 2),
          ("low", Cell.num 1), ("close", Cell.num 2), ("adjusted_close", Cell.num 2),
          ("volume", Cell.num 100)]]))).result).isSome = true :=
  (claim_C10_amended "US" "key"
    [[("code", Cell.str "AAPL"), ("exchange_short_name", Cell.str "US"),
      ("date", Cell.str "2024-01-02"), ("open", Cell.num 1), ("high", Cell.num 2),
      ("low", Cell.num 1), ("close", Cell.num 2), ("adjusted_close", Cell.num 2),
      ("volume", Cell.num 100)]]
    ["code", "exchange_short_name", "date", "open", "high", "low", "close",
     "adjusted_close", "volume"]
    (by decide) (by decide) (by decide) (by decide) (by decide)).mpr (by decide)

theorem dropCols_nrows {df : DataFrame} {names : List String} {out : DataFrame}
    (h : df.dropCols names = some out) : out.nrows = df.nrows := by
  rw [(dropCols_inv h).2]

theorem setColumns_nrows {df : DataFrame} {names : List String} {out : DataFrame}
    (h : df.setColumns names = some out) : out.nrows = df.nrows := by
  rw [(setColumns_inv h).2]

theorem tickersReshape_nrows {exchange : String} {now : Nat} {rows : List Row}
    {df : DataFrame} (h : tickersReshape exchange now rows = some df) :
    df.nrows = rows.length := by
  simp only [tickersReshape] at h
  rw [Option.bind_eq_some] at h
  obtain ⟨codes, _, h⟩ := h
  rw [Option.bind_eq_some] at h
  obtain ⟨tids, _, h⟩ := h
  rw [Option.bind_eq_some] at h
  obtain ⟨exs, _, h⟩ := h
  rw [select_nrows h, setCol_nrows, setCol_nrows, setColConst_nrows, setColConst_nrows,
      fromRecords_nrows]

theorem dailyReshape_nrows {exchange : String} {rows : List Row} {df : DataFrame}
    (h : dailyReshape exchange rows = some df) : df.nrows = rows.length := by
  simp only [dailyReshape] at h
  rw [Option.bind_eq_some] at h
  obtain ⟨codes, _, h⟩ := h
  rw [Option.bind_eq_some] at h
  obtain ⟨tids, _, h⟩ := h
  rw [Option.bind_eq_some] at h
  obtain ⟨dfd, hdrop, h⟩ := h
  rw [Option.bind_eq_some] at h
  obtain ⟨df3, hsetc, h⟩ := h
  rw [Option.bind_eq_some] at h
  obtain ⟨df4, hsel4, hsel⟩ := h
  rw [select_nrows hsel, select_nrows hsel4, setColumns_nrows hsetc, dropCols_nrows hdrop,
      setCol_nrows, fromRecords_nrows]

theorem historicalReshape_nrows {exchange ticker : String} {rows : List Row}
    {out : DataFrame} (h : historicalReshape exchange ticker rows = some out) :
    out.nrows = rows.length := by
  simp only [historicalReshape] at h
  cases hsc : ((fromRecords rows).setColConst "Ticker_ID"
      (Cell.str (replaceDot (ticker ++ "." ++ exchange)))).setColumns
      (PRICE_COLUMNS.take ((fromRecords rows).setColConst "Ticker_ID"
        (Cell.str (replaceDot (ticker ++ "." ++ exchange)))).cols.length) with
  | none => simp [hsc] at h
  | some relabeled =>
    rw [hsc] at h
    have h2 : relabeled.select PRICE_COLUMNS_SORTED = some out := h
    rw [select_nrows h2, setColumns_nrows hsc, setColConst_nrows, fromRecords_nrows]

theorem exchangesReshape_nrows (now : Nat) (rows : List Row) :
    (exchangesReshape now rows).nrows = rows.length + 2 := by
  show (concatDF (((fromRecords rows).setColConst "Source"
      (Cell.str "EoDHD.com")).setColConst "Date_Updated" (Cell.timestamp now))
      (fromRecords (manualUsRows now))).nrows = rows.length + 2
  rw [concatDF_nrows, setColConst_nrows, setColConst_nrows, fromRecords_nrows]
  rfl

/-- Claim C6: under every input and every expected response or failure mode
(transport error, empty or no-data response, non-list response, shape error
during reshaping), each of the four public retrieval functions returns either
a populated (non-empty) table or an absent marker — encoded as
`0 < ((result).map nrows).getD 1` — and, being a total function into
`Outcome`, never raises past its own boundary. -/
theorem claim_C6 (api_key exchange ticker date_to : String) (now : Nat)
    (resp : ApiResponse) :
    0 < (((retrieve_tickers api_key exchange now resp).result).map DataFrame.nrows).getD 1
  ∧ 0 < (((retrieve_exchanges api_key now resp).result).map DataFrame.nrows).getD 1
  ∧ 0 < (((retrieve_historical_price exchange ticker date_to api_key resp).result).map
        DataFrame.nrows).getD 1
  ∧ 0 < (((retrieve_daily_price exchange api_key resp).result).map DataFrame.nrows).getD 1 := by
  refine ⟨?_, ?_, ?_, ?_⟩
  · cases resp with
    | netError => simp [retrieve_tickers, make_api_request]
    | json v =>
      cases v with
      | jscalar t => simp [retrieve_tickers, make_api_request]
      | jlist rows2 =>
        by_cases hemp : rows2.isEmpty = true
        · simp [retrieve_tickers, make_api_request, hemp]
        · simp only [retrieve_tickers, make_api_request]
          rw [if_neg hemp]
          cases hr : tickersReshape exchange now rows2 with
          | none => simp
          | some df =>
            show 0 < df.nrows
            rw [tickersReshape_nrows hr]
            have hlen : rows2.length ≠ 0 := by
              intro h0
              rw [List.length_eq_zero] at h0
              rw [h0] at hemp
              exact hemp rfl
            omega
  · cases resp with
    | netError => simp [retrieve_exchanges, make_api_request]
    | json v =>
      cases v with
      | jscalar t =>
        cases t <;> simp [retrieve_exchanges, make_api_request, pyTruthy]
      | jlist rows2 =>
        by_cases hemp : rows2.isEmpty = true
        · have hf : pyTruthy (JsonValue.jlist rows2) = false := by simp [pyTruthy, hemp]
          simp [retrieve_exchanges, make_api_request, hf]
        · have htr2 : pyTruthy (JsonValue.jlist rows2) = true := by
            simp only [pyTruthy, Bool.not_eq_true']
            cases hb : rows2.isEmpty with
            | false => rfl
            | true => exact absurd hb hemp
          simp only [retrieve_exchanges, make_api_request]
          rw [if_pos htr2]
          show 0 < (exchangesReshape now rows2).nrows
          rw [exchangesReshape_nrows]
          omega
  · cases resp with
    | netError => simp [retrieve_historical_price]
    | json v =>
      cases v with
      | jscalar t => simp [retrieve_historical_price]
      | jlist rows2 =>
        by_cases hemp : (fromRecords rows2).isEmpty = true
        · simp [retrieve_historical_price, hemp]
        · simp only [retrieve_historical_price]
          rw [if_neg hemp]
          cases hr : historicalReshape exchange ticker rows2 with
          | none => simp
          | some out =>
            show 0 < out.nrows
            rw [historicalReshape_nrows hr]
            have hlen : rows2.length ≠ 0 := by
              intro h0
              apply hemp
              unfold DataFrame.isEmpty
              rw [fromRecords_nrows, h0]
              rfl
            omega
  · cases resp with
    | netError => simp [retrieve_daily_price, make_api_request]
    | json v =>
      cases v with
      | jscalar t =>
        cases t <;> simp [retrieve_daily_price, make_api_request, pyTruthy]
      | jlist rows2 =>
        by_cases hemp : rows2.isEmpty = true
        · have hf : pyTruthy (JsonValue.jlist rows2) = false := by simp [pyTruthy, hemp]
          simp [retrieve_daily_price, make_api_request, hf]
        · have htr2 : pyTruthy (JsonValue.jlist rows2) = true := by
            simp only [pyTruthy, Bool.not_eq_true']
            cases hb : rows2.isEmpty with
            | false => rfl
            | true => exact absurd hb hemp
          simp only [retrieve_daily_price, make_api_request]
          rw [if_pos htr2]
          cases hd : dailyReshape exchange rows2 with
          | none => simp
          | some df =>
            show 0 < df.nrows
            rw [dailyReshape_nrows hd]
            have hlen : rows2.length ≠ 0 := by
              intro h0
              rw [List.length_eq_zero] at h0
              rw [h0] at hemp
              exact hemp rfl
            omega

end EodhdUtils
